import Mathlib

/-!
Verification of the HTTP verification / status resolution core of the
domain-availability server (`src/services/http-verification.ts`,
`src/server.ts`, `src/types.ts`).

The TypeScript code is shallowly embedded: pure helpers become Lean
functions on `String` / `List Char`; the network is an explicit oracle
`Url → FetchResult`, and the prober additionally returns the list of URLs
it actually requested, so that "no request is ever issued to X" becomes a
statement about that list.
-/

/-! ## String helpers

JavaScript `String.prototype` operations used by the source, modelled on
`List Char`.  All pattern data in the source is ASCII, so ASCII-only
lowercasing (`Char.toLower`) coincides with JS `toLowerCase` on every
string the code compares.
-/

/-- JS `toLowerCase` (ASCII range, which covers all patterns in the source). -/
def lowerStr (s : String) : String := String.mk (s.data.map Char.toLower)

/-- `p` is a prefix of `l` (JS `startsWith` on char lists). -/
def prefOfL : List Char → List Char → Bool
  | [], _ => true
  | _ :: _, [] => false
  | a :: as, b :: bs => a == b && prefOfL as bs

/-- `p` occurs as a contiguous substring of the second list (JS `includes`). -/
def infOfL (p : List Char) : List Char → Bool
  | [] => prefOfL p []
  | c :: rest => prefOfL p (c :: rest) || infOfL p rest

/-- JS `s.startsWith p`. -/
def strStarts (s p : String) : Bool := prefOfL p.data s.data

/-- JS `s.endsWith p`. -/
def strEnds (s p : String) : Bool := prefOfL p.data.reverse s.data.reverse

/-- JS `s.includes p`. -/
def strHas (s p : String) : Bool := infOfL p.data s.data

/-! ## Data model (`src/types.ts`) -/

/-- `DomainStatus` from `src/types.ts`. -/
inductive DomainStatus
  | available
  | taken
  | parked
  | for_sale
  | premium
  | unknown
deriving DecidableEq, Repr

/-- Confidence levels of `ParkingDetection`. -/
inductive Confidence
  | high
  | medium
  | low
deriving DecidableEq, Repr

/-- `ParkingDetection` from `src/types.ts`. -/
structure ParkingDetection where
  isParked : Bool
  broker : Option String := none
  indicators : List String
  estimatedPrice : Option String := none
  confidence : Confidence
deriving DecidableEq, Repr

/-- `HttpVerificationResult` from `src/services/http-verification.ts`. -/
structure HttpVerificationResult where
  status : DomainStatus
  parkingDetection : Option ParkingDetection := none
  httpStatus : Option Nat := none
  redirectUrl : Option String := none
deriving DecidableEq, Repr

/-! ## SSRF blocklist (`blockedPatterns` / `isBlockedDomain`) -/

/-- The alternation `172\.(1[6-9]|2[0-9]|3[0-1])\.` spelled out. -/
def blocked172 : List String :=
  ["172.16.", "172.17.", "172.18.", "172.19.", "172.20.", "172.21.",
   "172.22.", "172.23.", "172.24.", "172.25.", "172.26.", "172.27.",
   "172.28.", "172.29.", "172.30.", "172.31."]

/-- `HttpVerificationService.isBlockedDomain`: `blockedPatterns.some(p => p.test(domain))`.
Each anchored regex of `blockedPatterns` is translated to the equivalent
string test, in source order. -/
def isBlockedDomain (domain : String) : Bool :=
  lowerStr domain == "localhost"            -- /^localhost$/i
  || strStarts domain "127."                -- /^127\./
  || strStarts domain "10."                 -- /^10\./
  || strStarts domain "192.168."            -- /^192\.168\./
  || blocked172.any (fun p => strStarts domain p)
  || strStarts domain "169.254."            -- /^169\.254\./
  || strStarts domain "0."                  -- /^0\./
  || strStarts domain "[::1]"               -- /^\[::1\]/
  || domain == "::1"                        -- /^::1$/
  || strStarts (lowerStr domain) "fc00:"    -- /^fc00:/i
  || strStarts (lowerStr domain) "fd00:"    -- /^fd00:/i
  || strStarts (lowerStr domain) "fe80:"    -- /^fe80:/i
  || strHas (lowerStr domain) "metadata.google"
  || strEnds (lowerStr domain) ".internal"  -- /\.internal$/i

/-! ## `PARKING_PATTERNS` (`src/types.ts`) -/

/-- `PARKING_PATTERNS.brokers`, in object-literal order. -/
def brokerPatterns : List (String × List String) :=
  [ ("sedo", ["sedo.com/", "href=\"https://sedo.com", "Sedo.com", "powered by sedo"]),
    ("dan", ["dan.com/", "href=\"https://dan.com", "Dan.com domain"]),
    ("afternic", ["afternic.com/", "Afternic.com"]),
    ("godaddy", ["godaddy.com/", "GoDaddy Auctions", "Get this domain at GoDaddy"]),
    ("namecheap", ["namecheap.com/market", "Namecheap Marketplace"]),
    ("hugedomains", ["hugedomains.com/", "HugeDomains.com"]),
    ("parkingcrew", ["parkingcrew.com", "Powered by ParkingCrew"]),
    ("bodis", ["bodis.com/", "Bodis.com"]) ]

/-- `PARKING_PATTERNS.indicators`. -/
def parkingIndicators : List String :=
  [ "This domain is for sale",
    "Buy this domain",
    "Make an offer on this domain",
    "Domain parking",
    "Premium domain for sale",
    "Get this domain",
    "Domain is for sale",
    "Inquire about this domain",
    "This domain may be for sale",
    "domain has been registered",
    "parked free",
    "Buy Now for" ]

/-- Accumulator of the broker-pattern scan loops: `broker` and `indicators`
locals of `checkUrlForParking` / `analyzeHtml`. -/
structure ScanAcc where
  broker : Option String := none
  indicators : List String := []
deriving DecidableEq, Repr

/-- The double loop over `PARKING_PATTERNS.brokers` shared verbatim by
`checkUrlForParking` and `analyzeHtml` (they differ only in the indicator
text, supplied as `note`): on a case-insensitive substring match, set
`broker` to the broker name and append one indicator. -/
def scanBrokerPatterns (hay : String) (note : String → String) : ScanAcc :=
  brokerPatterns.foldl
    (fun acc bp =>
      bp.2.foldl
        (fun acc2 p =>
          if strHas hay (lowerStr p) then
            { broker := some bp.1, indicators := acc2.indicators ++ [note p] }
          else acc2)
        acc)
    {}

/-- `HttpVerificationService.checkUrlForParking`. -/
def checkUrlForParking (url : String) : ParkingDetection :=
  let acc := scanBrokerPatterns (lowerStr url) (fun p => "URL contains " ++ p)
  { isParked := decide (0 < acc.indicators.length),
    broker := acc.broker,
    indicators := acc.indicators,
    confidence := if 1 < acc.indicators.length then .high else .medium }

/-! ## Price extraction (`analyzeHtml` price section)

The four regexes of `pricePatterns` are implemented as explicit scanners.
All four share the money core `[\d,]+(?:\.\d{2})?`; JS `String.match` with
a global flag returns the list of non-overlapping matches found scanning
left to right, which `scanAux` reproduces (fuel = input length suffices
because every match and every failed position consumes at least one
character).
-/

/-- Character class `[\d,]`. -/
def isDigitComma (c : Char) : Bool := c.isDigit || c == ','

/-- Match `[\d,]+(?:\.\d{2})?` at the head of `l`; returns the matched text
and the rest.  The optional fraction is taken greedily, exactly as the
regex engine does (no backtracking is possible: `.` is not in `[\d,]`). -/
def matchMoneyCore (l : List Char) : Option (List Char × List Char) :=
  let core := l.takeWhile isDigitComma
  let rest := l.drop core.length
  if core.isEmpty then none
  else
    match rest with
    | '.' :: d1 :: d2 :: rest2 =>
      if d1.isDigit && d2.isDigit then some (core ++ ['.', d1, d2], rest2)
      else some (core, rest)
    | _ => some (core, rest)

/-- Match `/\$[\d,]+(?:\.\d{2})?/` at the head. -/
def matchDollarAt : List Char → Option (List Char × List Char)
  | '$' :: rest =>
    match matchMoneyCore rest with
    | some (m, r) => some ('$' :: m, r)
    | none => none
  | _ => none

/-- Match `/€[\d,]+(?:\.\d{2})?/` at the head. -/
def matchEuroAt : List Char → Option (List Char × List Char)
  | '€' :: rest =>
    match matchMoneyCore rest with
    | some (m, r) => some ('€' :: m, r)
    | none => none
  | _ => none

/-- JS `\s` on the ASCII range (the only whitespace the embedded strings use). -/
def jsWhitespace (c : Char) : Bool :=
  c == ' ' || c == '\t' || c == '\n' || c == '\r' || c == '\x0b' || c == '\x0c'

/-- Match `WORD\s*[\d,]+(?:\.\d{2})?` case-insensitively at the head, for a
three-letter lowercase `WORD` (`usd` / `eur`); returns the original-case text. -/
def matchWordMoneyAt (w1 w2 w3 : Char) (l : List Char) : Option (List Char × List Char) :=
  match l with
  | c1 :: c2 :: c3 :: rest =>
    if c1.toLower == w1 && c2.toLower == w2 && c3.toLower == w3 then
      let ws := rest.takeWhile jsWhitespace
      let rest1 := rest.drop ws.length
      match matchMoneyCore rest1 with
      | some (m, r) => some (c1 :: c2 :: c3 :: (ws ++ m), r)
      | none => none
    else none
  | _ => none

/-- Global scan: all non-overlapping matches, left to right. -/
def scanAux (matcher : List Char → Option (List Char × List Char)) :
    Nat → List Char → List String
  | 0, _ => []
  | _ + 1, [] => []
  | fuel + 1, c :: rest =>
    match matcher (c :: rest) with
    | some (m, r) => String.mk m :: scanAux matcher fuel r
    | none => scanAux matcher fuel rest

/-- `html.match(/\$[\d,]+(?:\.\d{2})?/g)` (as a list, `[]` for no match). -/
def scanDollar (s : String) : List String := scanAux matchDollarAt s.data.length s.data

/-- `html.match(/USD\s*[\d,]+(?:\.\d{2})?/gi)`. -/
def scanUSD (s : String) : List String :=
  scanAux (matchWordMoneyAt 'u' 's' 'd') s.data.length s.data

/-- `html.match(/€[\d,]+(?:\.\d{2})?/g)`. -/
def scanEuro (s : String) : List String := scanAux matchEuroAt s.data.length s.data

/-- `html.match(/EUR\s*[\d,]+(?:\.\d{2})?/gi)`. -/
def scanEURWord (s : String) : List String :=
  scanAux (matchWordMoneyAt 'e' 'u' 'r') s.data.length s.data

/-- The four `pricePatterns` match lists, in source order. -/
def pricePatternMatches (html : String) : List (List String) :=
  [scanDollar html, scanUSD html, scanEuro html, scanEURWord html]

/-- `match.replace(/[^0-9.]/g, '')`. -/
def stripNonNumDot (l : List Char) : List Char := l.filter (fun c => c.isDigit || c == '.')

/-- Decimal value of a digit list. -/
def digitsToNat (l : List Char) : Nat :=
  l.foldl (fun acc c => acc * 10 + (c.toNat - '0'.toNat)) 0

/-- JS `parseFloat` restricted to inputs made of digits and dots (which is
all `stripNonNumDot` can produce): integer part, then an optional fraction
up to the next non-digit; `none` plays the role of `NaN`.  The value
`ip.fp` is returned exactly, as the fraction `(num, den)` with
`num = ip * 10 ^ |fp| + fp` and `den = 10 ^ |fp|` (kept unnormalized so
that everything reduces by plain `Nat` arithmetic). -/
def parseVal (l : List Char) : Option (Nat × Nat) :=
  let ip := l.takeWhile Char.isDigit
  let rest := l.drop ip.length
  let fp := match rest with
    | '.' :: r => r.takeWhile Char.isDigit
    | _ => []
  if ip.isEmpty && fp.isEmpty then none
  else some (digitsToNat ip * 10 ^ fp.length + digitsToNat fp, 10 ^ fp.length)

def MIN_DOMAIN_PRICE : Nat := 50
def MAX_DOMAIN_PRICE : Nat := 1000000

/-- `numericValue >= MIN_DOMAIN_PRICE && numericValue <= MAX_DOMAIN_PRICE`
applied to `parseFloat(match.replace(/[^0-9.]/g, ''))`; `NaN` (= `none`)
fails the comparison.  `num / den ≥ 50` is compared as `50 * den ≤ num`
(and likewise for the upper bound), which is exact. -/
def acceptPrice (m : String) : Bool :=
  match parseVal (stripNonNumDot m.data) with
  | some v => decide (MIN_DOMAIN_PRICE * v.2 ≤ v.1 ∧ v.1 ≤ MAX_DOMAIN_PRICE * v.2)
  | none => false

/-- One iteration of the `for (const pattern of pricePatterns)` loop: the
first in-band match of the family (if any) overwrites `estimatedPrice` and
appends a price indicator; the inner `break` stops at the first accepted
match, the outer loop continues with the next family. -/
def priceStep (st : Option String × List String) (ms : List String) :
    Option String × List String :=
  match ms.find? acceptPrice with
  | some m => (some m, st.2 ++ ["Price detected: " ++ m])
  | none => st

/-! ## HTML text heuristics (`analyzeHtml` tail) -/

/-- Drop everything up to and including the first `'>'`; `none` when there
is no `'>'` (then `/<[^>]*>/` cannot match at this `'<'`). -/
def dropThroughGt : List Char → Option (List Char)
  | [] => none
  | '>' :: rest => some rest
  | _ :: rest => dropThroughGt rest

/-- `html.replace(/<[^>]*>/g, '')`; fuel = input length (each step consumes
at least one character). -/
def stripTagsAux : Nat → List Char → List Char
  | 0, _ => []
  | _ + 1, [] => []
  | fuel + 1, '<' :: rest =>
    (match dropThroughGt rest with
     | some rest2 => stripTagsAux fuel rest2
     | none => '<' :: stripTagsAux fuel rest)
  | fuel + 1, c :: rest => c :: stripTagsAux fuel rest

def stripTags (s : String) : String := String.mk (stripTagsAux s.data.length s.data)

/-- JS `trim`. -/
def trimStr (s : String) : String :=
  String.mk (((s.data.dropWhile jsWhitespace).reverse.dropWhile jsWhitespace).reverse)

/-- Number of maximal non-whitespace runs. -/
def runCountAux (inWord : Bool) : List Char → Nat
  | [] => 0
  | c :: rest =>
    if jsWhitespace c then runCountAux false rest
    else (if inWord then 0 else 1) + runCountAux true rest

/-- `textContent.split(/\s+/).length` for an already-trimmed `textContent`:
`"".split(/\s+/)` is `[""]` (length 1); otherwise the split pieces are
exactly the maximal non-whitespace runs. -/
def jsSplitWsCount (s : String) : Nat :=
  if s.data.isEmpty then 1 else runCountAux false s.data

/-! ## The classifier (`analyzeHtml`) -/

/-- The confidence derivation at the end of `analyzeHtml`:
`high` if a broker is present and there are at least 3 indicators, else
`medium` with at least 2 indicators, else `low`. -/
def confOf (broker : Option String) (n : Nat) : Confidence :=
  if broker.isSome ∧ 3 ≤ n then .high
  else if 2 ≤ n then .medium
  else .low

/-- The broker-pattern loop of `analyzeHtml` (first loop). -/
def analyzeBrokerScan (htmlLower : String) : ScanAcc :=
  scanBrokerPatterns htmlLower (fun p => "Found \"" ++ p ++ "\" in page")

/-- The generic-indicator loop of `analyzeHtml` (second loop). -/
def analyzeIndicators (htmlLower : String) : List String :=
  (parkingIndicators.filter (fun i => strHas htmlLower (lowerStr i))).map
    (fun i => "Found \"" ++ i ++ "\"")

/-- The price loop of `analyzeHtml` over the four pattern families, starting
from no extracted price and the indicators collected so far. -/
def analyzePrice (html : String) (ind1 : List String) : Option String × List String :=
  (pricePatternMatches html).foldl priceStep (none, ind1)

/-- `HttpVerificationService.analyzeHtml`. -/
def analyzeHtml (html : String) : ParkingDetection :=
  let htmlLower := lowerStr html
  let acc := analyzeBrokerScan htmlLower
  let ind1 := acc.indicators ++ analyzeIndicators htmlLower
  let pr := analyzePrice html ind1
  let textContent := trimStr (stripTags html)
  let wordCount := jsSplitWsCount textContent
  let ind3 := if wordCount < 50 ∧ 0 < pr.2.length then pr.2 ++ ["Minimal page content"] else pr.2
  { isParked := decide (2 ≤ ind3.length) || acc.broker.isSome,
    broker := acc.broker,
    indicators := ind3,
    estimatedPrice := pr.1,
    confidence := confOf acc.broker ind3.length }


/-! ## The prober (`verifyDomain` / `tryFetch`)

The network is an oracle `net : Url → FetchResult`.  A `Url` carries its
hostname together with its full text; `https://domain` has hostname
`domain`.  `FetchResult.ok` abstracts the `fetch` response: its HTTP
status, the resolution of the `Location` header against the current URL
(`none` = no header, `some none` = `new URL` throws, `some (some u)` = the
resolved URL — URL parsing is a JS builtin, external to this core), the
`content-type` header (`''` when absent, per `|| ''`), and the body text
produced by `readResponseWithLimit` (`none` = unreadable/`null`).
`FetchResult.err` is a thrown fetch error carrying its message (DNS
failure, connection failure, TLS failure, or timeout-triggered abort).

`tryFetch` additionally returns the list of URLs it handed to `fetchIPv4`,
in request order, so that SSRF claims can talk about requests issued.
-/

structure Url where
  host : String
  full : String
deriving DecidableEq, Repr

inductive FetchResult
  | ok (status : Nat) (location : Option (Option Url)) (contentType : String)
       (body : Option String)
  | err (msg : String)
deriving DecidableEq, Repr

/-- The `catch` block of `tryFetch`: the error-message dispatch.  Every
branch of the source returns `{ status: 'unknown' }`; the chain is kept to
mirror the code. -/
def errorStatusFor (msg : String) : DomainStatus :=
  if strHas msg "ENOTFOUND" || strHas msg "EAI_AGAIN" || strHas msg "getaddrinfo" then
    .unknown
  else if strHas msg "ECONNREFUSED" && strHas msg "::1" then .unknown
  else if strHas msg "ECONNREFUSED" || strHas msg "ETIMEDOUT" ||
      strHas msg "ECONNRESET" || strHas msg "abort" then .unknown
  else if strHas msg "SSL" || strHas msg "certificate" || strHas msg "CERT" then .unknown
  else .unknown

def MAX_REDIRECTS : Nat := 5

/-- Outcome of one response: either `tryFetch` returns `r` (`return ...` in
the source), or it follows a validated redirect to `ru`
(`return this.tryFetch(redirectUrl.toString(), redirectCount + 1)`). -/
inductive StepOut
  | done (r : HttpVerificationResult)
  | follow (ru : Url)
deriving DecidableEq, Repr

/-- Everything `tryFetch` does with one fetch outcome, minus the recursive
call — a direct transliteration of the body of the `try`/`catch` after the
`fetchIPv4` call (redirect handling, SSRF re-validation, URL fast path,
HTML classification, error normalization). -/
def handleResponse (resp : FetchResult) : StepOut :=
  match resp with
  | .err msg => .done { status := errorStatusFor msg }
  | .ok st loc ctype body =>
    if 300 ≤ st ∧ st < 400 then
      match loc with
      | some (some ru) =>
        if isBlockedDomain ru.host then .done { status := .unknown }
        else
          let chk := checkUrlForParking ru.full
          if chk.isParked then
            .done { status := .parked, parkingDetection := some chk,
                    httpStatus := some st, redirectUrl := some ru.full }
          else .follow ru
      | some none => .done { status := .unknown }   -- invalid redirect URL
      | none => .done { status := .unknown }        -- redirect without Location
    else
      if strHas ctype "text/html" then
        match body with
        | some html =>
          -- `if (html)`: the empty string is falsy in JS
          if html == "" then .done { status := .taken, httpStatus := some st }
          else
            let pd := analyzeHtml html
            if pd.isParked then
              .done { status := (if pd.broker.isSome then .for_sale else .parked),
                      parkingDetection := some pd, httpStatus := some st }
            else .done { status := .taken, httpStatus := some st }
        | none => .done { status := .taken, httpStatus := some st }
      else .done { status := .taken, httpStatus := some st }

/-- Fuel-indexed core of `tryFetch` (structural recursion on the fuel, so
that concrete runs reduce inside the kernel).  `tryFetch` instantiates the
fuel with `MAX_REDIRECTS - redirectCount`; the hop-bound check keeps that
quantity positive at every reachable recursive call, so the fuel-exhausted
branch is dead there and `tryFetch_eq` below recovers the source
recurrence exactly. -/
def tryFetchAux (net : Url → FetchResult) (fuel : Nat) (url : Url)
    (redirectCount : Nat) : HttpVerificationResult × List Url :=
  if MAX_REDIRECTS ≤ redirectCount then ({ status := .unknown }, [])
  else
    match handleResponse (net url), fuel with
    | .done r, _ => (r, [url])
    | .follow _, 0 => ({ status := .unknown }, [])
    | .follow ru, fuel' + 1 =>
      let p := tryFetchAux net fuel' ru (redirectCount + 1)
      (p.1, url :: p.2)

/-- `HttpVerificationService.tryFetch`.  Second component: the URLs
requested, in order.  The hop bound is checked before any request, exactly
as in the source. -/
def tryFetch (net : Url → FetchResult) (url : Url) (redirectCount : Nat) :
    HttpVerificationResult × List Url :=
  tryFetchAux net (MAX_REDIRECTS - redirectCount) url redirectCount

def httpsUrl (d : String) : Url := ⟨d, "https://" ++ d⟩
def httpUrl (d : String) : Url := ⟨d, "http://" ++ d⟩

/-- `HttpVerificationService.verifyDomain`: SSRF check, then HTTPS with an
HTTP fallback when the HTTPS attempt resolved to `unknown`. -/
def verifyDomain (net : Url → FetchResult) (domain : String) :
    HttpVerificationResult × List Url :=
  if isBlockedDomain domain then ({ status := .unknown }, [])
  else
    let r1 := tryFetch net (httpsUrl domain) 0
    if r1.1.status = .unknown then
      let r2 := tryFetch net (httpUrl domain) 0
      (r2.1, r1.2 ++ r2.2)
    else r1

/-! ## Bulk verification (`verifyBulk` / `chunkArray`) -/

/-- Fuel-indexed core of `chunkArray`; each step with a nonempty list and
positive `size` drops at least one element, so fuel = list length never
runs out (`chunkArray_eq` below recovers the loop recurrence). -/
def chunkArrayAux {α : Type} (size : Nat) : Nat → List α → List (List α)
  | _, [] => []
  | 0, _ :: _ => []
  | fuel + 1, a :: t => (a :: t).take size :: chunkArrayAux size fuel ((a :: t).drop size)

/-- `HttpVerificationService.chunkArray`: `slice(i, i + size)` for
`i = 0, size, 2*size, …`.  (The source loop would not terminate for
`size = 0`; the model returns `[]` there; all uses have `size = 5`.) -/
def chunkArray {α : Type} (arr : List α) (size : Nat) : List (List α) :=
  if size == 0 then [] else chunkArrayAux size arr.length arr

/-- Keys of the result map, in insertion order. -/
def mapKeys (m : List (String × HttpVerificationResult)) : List String := m.map Prod.fst

/-- JS `Map.prototype.set`: overwrite in place when the key exists,
append otherwise. -/
def mapSet (m : List (String × HttpVerificationResult)) (k : String)
    (v : HttpVerificationResult) : List (String × HttpVerificationResult) :=
  if k ∈ mapKeys m then m.map (fun p => if p.1 = k then (k, v) else p) else m ++ [(k, v)]

/-- `HttpVerificationService.verifyBulk` (result map only; the inter-group
delay and the concurrent execution within a group do not affect the map:
each group's results are inserted in chunk order). -/
def verifyBulk (net : Url → FetchResult) (domains : List String) :
    List (String × HttpVerificationResult) :=
  (chunkArray domains 5).foldl
    (fun results chunk =>
      chunk.foldl (fun rs d => mapSet rs d (verifyDomain net d).1) results)
    []

/-! ## The merge policy (`DomainMcpServer.handleLookupDomain`) -/

/-- The fields of the RDAP result that drive the merge. -/
structure RdapSummary where
  available : Bool
  registered : Bool
deriving DecidableEq, Repr

/-- Step 1 of `handleLookupDomain`: the base status from the registry
(initialized to `unknown`, set to `available`/`taken` from RDAP). -/
def statusAfterRegistry (r : RdapSummary) : DomainStatus :=
  if r.available then .available else if r.registered then .taken else .unknown

/-- Step 3 of `handleLookupDomain`: with aftermarket lookup enabled and a
non-empty listing set, a `taken` status is upgraded to `for_sale`.
(Step 2, pricing, never touches the status.) -/
def statusAfterAftermarket (includeAftermarket isListed : Bool) (s : DomainStatus) :
    DomainStatus :=
  if includeAftermarket && isListed then (if s = .taken then .for_sale else s) else s

/-- Step 4 of `handleLookupDomain`: HTTP verification override. -/
def statusAfterHttp (includeParking enableHttpVerification : Bool)
    (httpStatus : DomainStatus) (s : DomainStatus) : DomainStatus :=
  if includeParking && enableHttpVerification then
    if httpStatus = .parked ∨ httpStatus = .for_sale then httpStatus
    else if httpStatus = .taken ∧ s = .available then .taken
    else s
  else s

/-- The merged availability status of a single-domain lookup. -/
def lookupStatus (r : RdapSummary) (includeAftermarket isListed includeParking
    enableHttp : Bool) (httpStatus : DomainStatus) : DomainStatus :=
  statusAfterHttp includeParking enableHttp httpStatus
    (statusAfterAftermarket includeAftermarket isListed (statusAfterRegistry r))

/-! ## CIDR membership, for the blocklist claim

Modelled from the spec: the spec describes the IPv6 part of the blocklist
as full CIDR ranges (`fc00::/7`, `fe80::/10`); the code only tests textual
prefixes.  To compare the two, membership of a textual IPv6 address in
`fc00::/7` is expressed through the value of its first hextet. -/

def hexDigitVal (c : Char) : Option Nat :=
  if c.isDigit then some (c.toNat - '0'.toNat)
  else if 'a' ≤ c ∧ c ≤ 'f' then some (c.toNat - 'a'.toNat + 10)
  else if 'A' ≤ c ∧ c ≤ 'F' then some (c.toNat - 'A'.toNat + 10)
  else none

/-- Value of the leading hextet of a textual IPv6 address (the hex digits
before the first `':'`). -/
def firstHextet (s : String) : Option Nat :=
  let grp := s.data.takeWhile (fun c => c ≠ ':')
  if grp.isEmpty || decide (4 < grp.length) then none
  else
    grp.foldl
      (fun acc c =>
        match acc, hexDigitVal c with
        | some a, some v => some (a * 16 + v)
        | _, _ => none)
      (some 0)

/-- Modelled from the spec: an address lies in the unique-local range
`fc00::/7` exactly when its first hextet is in `[0xfc00, 0xfdff]`. -/
def inFc00Slash7 (s : String) : Prop :=
  ∃ v, firstHextet s = some v ∧ 0xfc00 ≤ v ∧ v ≤ 0xfdff

/-! ## Helper lemmas -/

/-- Statuses an HTTP probe can produce. -/
def probeStatus (s : DomainStatus) : Prop :=
  s = .taken ∨ s = .parked ∨ s = .for_sale ∨ s = .unknown

theorem errorStatusFor_unknown (msg : String) : errorStatusFor msg = .unknown := by
  unfold errorStatusFor
  repeat' split
  all_goals rfl

theorem handleResponse_done_status (resp : FetchResult) (r : HttpVerificationResult)
    (h : handleResponse resp = .done r) : probeStatus r.status := by
  rcases resp with ⟨st, loc, ctype, body⟩ | msg
  · rcases loc with _ | (_ | ru) <;> rcases body with _ | html <;>
      simp only [handleResponse] at h <;>
      repeat' split at h
    all_goals cases h
    all_goals simp [probeStatus]
  · simp only [handleResponse] at h
    cases h
    simp [probeStatus, errorStatusFor_unknown]

theorem handleResponse_follow_not_blocked (resp : FetchResult) (ru : Url)
    (h : handleResponse resp = .follow ru) : isBlockedDomain ru.host = false := by
  rcases resp with ⟨st, loc, ctype, body⟩ | msg
  · rcases loc with _ | (_ | ru2) <;> rcases body with _ | html <;>
      simp only [handleResponse] at h <;>
      repeat' split at h
    all_goals cases h
    all_goals simp_all
  · simp only [handleResponse] at h
    cases h

/-- The source recurrence of `tryFetch`, recovered from the fuel-indexed
definition. -/
theorem tryFetch_eq (net : Url → FetchResult) (url : Url) (c : Nat) :
    tryFetch net url c =
      (if MAX_REDIRECTS ≤ c then ({ status := .unknown }, [])
       else
        match handleResponse (net url) with
        | .done r => (r, [url])
        | .follow ru =>
          ((tryFetch net ru (c + 1)).1, url :: (tryFetch net ru (c + 1)).2)) := by
  by_cases hc : MAX_REDIRECTS ≤ c
  · have h0 : MAX_REDIRECTS - c = 0 := Nat.sub_eq_zero_of_le hc
    simp only [tryFetch, h0]
    rw [tryFetchAux.eq_def]
    simp [hc]
  · have hf : MAX_REDIRECTS - c = (MAX_REDIRECTS - (c + 1)) + 1 := by
      simp only [MAX_REDIRECTS] at *
      omega
    simp only [tryFetch, hf]
    rw [tryFetchAux.eq_def]
    simp only [if_neg hc]
    cases h : handleResponse (net url) with
    | done r => simp
    | follow ru => simp

/-- When the bound has not been reached and the response resolves without a
redirect to follow, `tryFetch` returns that resolution after its single
request. -/
theorem tryFetch_done (net : Url → FetchResult) (url : Url) (c : Nat)
    (r : HttpVerificationResult) (hc : ¬ MAX_REDIRECTS ≤ c)
    (h : handleResponse (net url) = .done r) : tryFetch net url c = (r, [url]) := by
  rw [tryFetch_eq]
  simp [hc, h]

theorem tryFetchAux_status (net : Url → FetchResult) :
    ∀ (fuel : Nat) (url : Url) (c : Nat),
      probeStatus (tryFetchAux net fuel url c).1.status := by
  intro fuel
  induction fuel with
  | zero =>
    intro url c
    rw [tryFetchAux.eq_def]
    split
    · simp [probeStatus]
    · cases h : handleResponse (net url) with
      | done r => simpa using handleResponse_done_status _ _ h
      | follow ru => simp [probeStatus]
  | succ fuel ih =>
    intro url c
    rw [tryFetchAux.eq_def]
    split
    · simp [probeStatus]
    · cases h : handleResponse (net url) with
      | done r => simpa using handleResponse_done_status _ _ h
      | follow ru => simpa using ih ru (c + 1)

/-- Every URL the prober requests after an unblocked starting URL has an
unblocked hostname: the initial request is the starting URL itself, and
every followed redirect passed the blocklist re-validation. -/
theorem tryFetchAux_log_hosts (net : Url → FetchResult) :
    ∀ (fuel : Nat) (url : Url) (c : Nat), isBlockedDomain url.host = false →
      ∀ u ∈ (tryFetchAux net fuel url c).2, isBlockedDomain u.host = false := by
  intro fuel
  induction fuel with
  | zero =>
    intro url c hu u hmem
    rw [tryFetchAux.eq_def] at hmem
    split at hmem
    · simp at hmem
    · cases h : handleResponse (net url) with
      | done r =>
        rw [h] at hmem
        simp at hmem
        simpa [hmem] using hu
      | follow ru =>
        rw [h] at hmem
        simp at hmem
  | succ fuel ih =>
    intro url c hu u hmem
    rw [tryFetchAux.eq_def] at hmem
    split at hmem
    · simp at hmem
    · cases h : handleResponse (net url) with
      | done r =>
        rw [h] at hmem
        simp at hmem
        simpa [hmem] using hu
      | follow ru =>
        rw [h] at hmem
        simp only [List.mem_cons] at hmem
        rcases hmem with rfl | hmem
        · exact hu
        · exact ih ru (c + 1) (handleResponse_follow_not_blocked _ _ h) u hmem

theorem tryFetch_log_hosts (net : Url → FetchResult) (url : Url) (c : Nat)
    (h : isBlockedDomain url.host = false) :
    ∀ u ∈ (tryFetch net url c).2, isBlockedDomain u.host = false := by
  unfold tryFetch
  exact tryFetchAux_log_hosts net _ url c h

/-- The prober issues at most `MAX_REDIRECTS - redirectCount` requests. -/
theorem tryFetchAux_log_length (net : Url → FetchResult) :
    ∀ (fuel : Nat) (url : Url) (c : Nat),
      (tryFetchAux net fuel url c).2.length ≤ MAX_REDIRECTS - c := by
  intro fuel
  induction fuel with
  | zero =>
    intro url c
    rw [tryFetchAux.eq_def]
    split
    · simp
    · cases h : handleResponse (net url) with
      | done r =>
        simp only [MAX_REDIRECTS] at *
        simp
        omega
      | follow ru => simp
  | succ fuel ih =>
    intro url c
    rw [tryFetchAux.eq_def]
    split
    · simp
    · cases h : handleResponse (net url) with
      | done r =>
        simp only [MAX_REDIRECTS] at *
        simp
        omega
      | follow ru =>
        have := ih ru (c + 1)
        simp only [MAX_REDIRECTS] at *
        simp
        omega

theorem tryFetch_status (net : Url → FetchResult) (url : Url) (c : Nat) :
    probeStatus (tryFetch net url c).1.status :=
  tryFetchAux_status net _ url c

theorem verifyDomain_status (net : Url → FetchResult) (d : String) :
    probeStatus (verifyDomain net d).1.status := by
  unfold verifyDomain
  split
  · simp [probeStatus]
  · dsimp only
    split
    · exact tryFetch_status net _ 0
    · exact tryFetch_status net _ 0

/-- A `foldl` preserves any invariant its step preserves. -/
theorem foldl_preserve {α β : Type} (P : β → Prop) (f : β → α → β)
    (hstep : ∀ b a, P b → P (f b a)) :
    ∀ (l : List α) (b : β), P b → P (l.foldl f b) := by
  intro l
  induction l with
  | nil => intro b hb; simpa
  | cons a t ih =>
    intro b hb
    simpa using ih (f b a) (hstep b a hb)

/-- In a broker-pattern scan, a broker has been recorded exactly when at
least one indicator has been recorded (each match sets both). -/
theorem scanBrokerPatterns_coupling (hay : String) (note : String → String) :
    ((scanBrokerPatterns hay note).broker.isSome = true ↔
      (scanBrokerPatterns hay note).indicators ≠ []) := by
  unfold scanBrokerPatterns
  apply foldl_preserve
    (fun acc : ScanAcc => acc.broker.isSome = true ↔ acc.indicators ≠ [])
  · intro acc bp hacc
    apply foldl_preserve
      (fun acc : ScanAcc => acc.broker.isSome = true ↔ acc.indicators ≠ [])
    · intro acc2 p h2
      split
      · simp
      · exact h2
    · exact hacc
  · simp

theorem mapKeys_append (m : List (String × HttpVerificationResult))
    (p : String × HttpVerificationResult) :
    mapKeys (m ++ [p]) = mapKeys m ++ [p.1] := by
  simp [mapKeys]

theorem mapKeys_mapSet (m : List (String × HttpVerificationResult)) (k : String)
    (v : HttpVerificationResult) :
    mapKeys (mapSet m k v) =
      if k ∈ mapKeys m then mapKeys m else mapKeys m ++ [k] := by
  unfold mapSet
  split
  · simp only [mapKeys, List.map_map, if_pos]
    apply List.map_congr_left
    intro p _
    by_cases hp : p.1 = k
    · simp [hp, Function.comp]
    · simp [hp, Function.comp]
  · simp [mapKeys]

/-- The per-domain insertion step of `verifyBulk`. -/
def bulkStep (net : Url → FetchResult)
    (rs : List (String × HttpVerificationResult)) (d : String) :
    List (String × HttpVerificationResult) :=
  mapSet rs d (verifyDomain net d).1

theorem bulkFold_keys_mem (net : Url → FetchResult) :
    ∀ (ds : List String) (m0 : List (String × HttpVerificationResult)) (a : String),
      a ∈ mapKeys (ds.foldl (bulkStep net) m0) ↔ a ∈ mapKeys m0 ∨ a ∈ ds := by
  intro ds
  induction ds with
  | nil => intro m0 a; simp
  | cons d t ih =>
    intro m0 a
    have step : a ∈ mapKeys (mapSet m0 d (verifyDomain net d).1) ↔
        a ∈ mapKeys m0 ∨ a = d := by
      rw [mapKeys_mapSet]
      split
      · rename_i hd
        constructor
        · intro h; exact Or.inl h
        · rintro (h | rfl)
          · exact h
          · exact hd
      · simp
    simp only [List.foldl_cons, List.mem_cons]
    rw [ih]
    have hb : bulkStep net m0 d = mapSet m0 d (verifyDomain net d).1 := rfl
    rw [hb, step]
    tauto

theorem bulkFold_keys_nodup (net : Url → FetchResult) :
    ∀ (ds : List String) (m0 : List (String × HttpVerificationResult)),
      (mapKeys m0).Nodup → (mapKeys (ds.foldl (bulkStep net) m0)).Nodup := by
  intro ds
  induction ds with
  | nil => intro m0 h; simpa
  | cons d t ih =>
    intro m0 h
    simp only [List.foldl_cons]
    apply ih
    rw [bulkStep, mapKeys_mapSet]
    split
    · exact h
    · rename_i hd
      rw [List.nodup_append]
      refine ⟨h, by simp, ?_⟩
      intro x hx hx2
      simp only [List.mem_singleton] at hx2
      subst hx2
      exact hd hx

theorem chunkArrayAux_nil {α : Type} (size fuel : Nat) :
    chunkArrayAux (α := α) size fuel [] = [] := by
  cases fuel <;> simp [chunkArrayAux]

theorem chunkArrayAux_join {α : Type} (size : Nat) (hs : 0 < size) :
    ∀ (fuel : Nat) (l : List α), l.length ≤ fuel →
      (chunkArrayAux size fuel l).flatten = l := by
  intro fuel
  induction fuel with
  | zero =>
    intro l hl
    have h0 : l = [] := List.eq_nil_of_length_eq_zero (Nat.le_zero.mp hl)
    subst h0
    simp [chunkArrayAux]
  | succ fuel ih =>
    intro l hl
    cases l with
    | nil => simp [chunkArrayAux]
    | cons a t =>
      simp only [chunkArrayAux, List.flatten_cons]
      rw [ih]
      · exact List.take_append_drop size (a :: t)
      · simp only [List.length_drop, List.length_cons]
        simp only [List.length_cons] at hl
        omega

theorem chunkArrayAux_mem_length {α : Type} (size : Nat) :
    ∀ (fuel : Nat) (l : List α) (c : List α),
      c ∈ chunkArrayAux size fuel l → c.length ≤ size := by
  intro fuel
  induction fuel with
  | zero =>
    intro l c hc
    cases l <;> simp [chunkArrayAux] at hc
  | succ fuel ih =>
    intro l c hc
    cases l with
    | nil => simp [chunkArrayAux] at hc
    | cons a t =>
      simp only [chunkArrayAux, List.mem_cons] at hc
      rcases hc with rfl | hc
      · simp [List.length_take]
      · exact ih _ c hc

theorem chunkArrayAux_dropLast {α : Type} (size : Nat) (hs : 0 < size) :
    ∀ (fuel : Nat) (l : List α), l.length ≤ fuel →
      ∀ c ∈ (chunkArrayAux size fuel l).dropLast, c.length = size := by
  intro fuel
  induction fuel with
  | zero =>
    intro l hl c hc
    have h0 : l = [] := List.eq_nil_of_length_eq_zero (Nat.le_zero.mp hl)
    subst h0
    simp [chunkArrayAux] at hc
  | succ fuel ih =>
    intro l hl c hc
    cases l with
    | nil => simp [chunkArrayAux] at hc
    | cons a t =>
      simp only [chunkArrayAux] at hc
      cases hrest : chunkArrayAux size fuel ((a :: t).drop size) with
      | nil => simp [hrest] at hc
      | cons r rs =>
        rw [hrest] at hc
        simp only [List.dropLast_cons₂, List.mem_cons] at hc
        have hdrop : (a :: t).drop size ≠ [] := by
          intro hd
          rw [hd, chunkArrayAux_nil] at hrest
          exact List.noConfusion hrest
        have hlen : size < (a :: t).length := by
          by_contra hle
          push_neg at hle
          exact hdrop (List.drop_eq_nil_of_le hle)
        rcases hc with rfl | hc
        · simp only [List.length_take, List.length_cons]
          simp only [List.length_cons] at hlen
          omega
        · have hfl : ((a :: t).drop size).length ≤ fuel := by
            simp only [List.length_drop, List.length_cons]
            simp only [List.length_cons] at hl
            omega
          have hrec := ih ((a :: t).drop size) hfl
          rw [hrest] at hrec
          exact hrec c hc

theorem chunkArray_join {α : Type} (l : List α) : (chunkArray l 5).flatten = l := by
  unfold chunkArray
  simp only [beq_iff_eq, OfNat.ofNat_ne_zero, if_false]
  exact chunkArrayAux_join 5 (by omega) l.length l le_rfl

theorem chunkArray_mem_length {α : Type} (l : List α) (c : List α)
    (hc : c ∈ chunkArray l 5) : c.length ≤ 5 := by
  unfold chunkArray at hc
  simp only [beq_iff_eq, OfNat.ofNat_ne_zero, if_false] at hc
  exact chunkArrayAux_mem_length 5 l.length l c hc

theorem chunkArray_dropLast {α : Type} (l : List α) (c : List α)
    (hc : c ∈ (chunkArray l 5).dropLast) : c.length = 5 := by
  unfold chunkArray at hc
  simp only [beq_iff_eq, OfNat.ofNat_ne_zero, if_false] at hc
  exact chunkArrayAux_dropLast 5 (by omega) l.length l le_rfl c hc

theorem verifyBulk_eq_foldl (net : Url → FetchResult) (ds : List String) :
    verifyBulk net ds = ds.foldl (bulkStep net) [] := by
  unfold verifyBulk
  have hjoin : ∀ (L : List (List String)) (m0 : List (String × HttpVerificationResult)),
      L.foldl (fun rs chunk => chunk.foldl (bulkStep net) rs) m0 =
        L.flatten.foldl (bulkStep net) m0 := by
    intro L
    induction L with
    | nil => intro m0; simp
    | cons chead t ih =>
      intro m0
      simp [List.foldl_append, ih]
  have heta : (fun (results : List (String × HttpVerificationResult))
      (chunk : List String) =>
        chunk.foldl (fun rs d => mapSet rs d (verifyDomain net d).1) results) =
      (fun rs chunk => chunk.foldl (bulkStep net) rs) := rfl
  rw [heta, hjoin, chunkArray_join]

theorem verifyBulk_keys_mem (net : Url → FetchResult) (ds : List String) (a : String) :
    a ∈ mapKeys (verifyBulk net ds) ↔ a ∈ ds := by
  rw [verifyBulk_eq_foldl, bulkFold_keys_mem]
  simp [mapKeys]

theorem verifyBulk_keys_nodup (net : Url → FetchResult) (ds : List String) :
    (mapKeys (verifyBulk net ds)).Nodup := by
  rw [verifyBulk_eq_foldl]
  exact bulkFold_keys_nodup net ds [] (by simp [mapKeys])

theorem confOf_spec (b : Option String) (n : Nat) :
    (confOf b n = .high ↔ (b.isSome = true ∧ 3 ≤ n))
  ∧ (confOf b n = .medium ↔ (¬(b.isSome = true ∧ 3 ≤ n) ∧ 2 ≤ n))
  ∧ (confOf b n = .low ↔ (¬(b.isSome = true ∧ 3 ≤ n) ∧ ¬(2 ≤ n))) := by
  unfold confOf
  by_cases h1 : b.isSome = true ∧ 3 ≤ n <;> by_cases h2 : 2 ≤ n <;>
    simp [h1, h2]

theorem analyzeHtml_fields (html : String) :
    (analyzeHtml html).confidence =
      confOf (analyzeHtml html).broker (analyzeHtml html).indicators.length
  ∧ (analyzeHtml html).isParked =
      (decide (2 ≤ (analyzeHtml html).indicators.length) ||
        (analyzeHtml html).broker.isSome) := by
  unfold analyzeHtml
  exact ⟨rfl, rfl⟩

theorem analyzeHtml_broker (html : String) :
    (analyzeHtml html).broker = (analyzeBrokerScan (lowerStr html)).broker := rfl

theorem checkUrl_fields (url : String) :
    (checkUrlForParking url).isParked =
      decide (0 < (checkUrlForParking url).indicators.length)
  ∧ (checkUrlForParking url).confidence =
      (if 1 < (checkUrlForParking url).indicators.length then .high else .medium) := by
  unfold checkUrlForParking
  exact ⟨rfl, rfl⟩

/-- In `checkUrlForParking`, a broker is recorded exactly when any
indicator is. -/
theorem checkUrl_broker_iff (u : String) :
    ((checkUrlForParking u).broker.isSome = true ↔
      (checkUrlForParking u).indicators ≠ []) := by
  have h := scanBrokerPatterns_coupling (lowerStr u) (fun p => "URL contains " ++ p)
  simpa [checkUrlForParking] using h

/-- The extracted price is independent of the indicator accumulator the
price loop starts from. -/
theorem priceFold_fst_ind :
    ∀ (L : List (List String)) (p : Option String) (i1 i2 : List String),
      (L.foldl priceStep (p, i1)).1 = (L.foldl priceStep (p, i2)).1 := by
  intro L
  induction L with
  | nil => intro p i1 i2; simp
  | cons ms t ih =>
    intro p i1 i2
    simp only [List.foldl_cons]
    have hstep : ∀ (i : List String), priceStep (p, i) ms =
        (match ms.find? acceptPrice with
         | some m => (some m, i ++ ["Price detected: " ++ m])
         | none => (p, i)) := by
      intro i
      unfold priceStep
      cases ms.find? acceptPrice <;> simp
    rw [hstep i1, hstep i2]
    cases ms.find? acceptPrice
    · exact ih p i1 i2
    · exact ih _ _ _

theorem analyzeHtml_price (html : String) :
    (analyzeHtml html).estimatedPrice = (analyzePrice html []).1 := by
  have h1 : (analyzeHtml html).estimatedPrice =
      (analyzePrice html ((analyzeBrokerScan (lowerStr html)).indicators ++
        analyzeIndicators (lowerStr html))).1 := rfl
  rw [h1]
  unfold analyzePrice
  exact priceFold_fst_ind _ none _ []

/-! ## Claims -/

/-- C1: in the merge policy of `handleLookupDomain`, (a) registry
`available` with HTTP `taken` yields final status `taken`, whatever the
aftermarket step did; (b) registry `taken`, a non-empty aftermarket
listing set and HTTP `unknown` yield `for_sale`; (c) an `unknown` HTTP
result leaves the status produced by the earlier merge steps unchanged. -/
theorem claim_C1_merge_policy :
    (∀ (reg incA isListed : Bool),
      lookupStatus ⟨true, reg⟩ incA isListed true true .taken = .taken)
  ∧ lookupStatus ⟨false, true⟩ true true true true .unknown = .for_sale
  ∧ (∀ (incP en : Bool) (s : DomainStatus),
      statusAfterHttp incP en .unknown s = s) := by
  refine ⟨?_, by decide, ?_⟩
  · intro reg incA isListed
    unfold lookupStatus statusAfterHttp statusAfterAftermarket statusAfterRegistry
    cases incA <;> cases isListed <;> simp
  · intro incP en s
    unfold statusAfterHttp
    cases incP <;> cases en <;> simp

/-- C2: (a) for a blocklisted hostname `verifyDomain` returns `unknown`
and issues no request at all; (b) a redirect whose resolved destination
hostname is blocklisted makes the prober terminate with `unknown`, its
only request being the original probe — the destination is never fetched;
(c) every request `verifyDomain` issues is to an unblocked hostname. -/
theorem claim_C2_ssrf_blocklist :
    (∀ (net : Url → FetchResult) (d : String), isBlockedDomain d = true →
      verifyDomain net d = ({ status := .unknown }, []))
  ∧ (∀ (net : Url → FetchResult) (url ru : Url) (c st : Nat) (ct : String)
      (body : Option String),
      net url = .ok st (some (some ru)) ct body → 300 ≤ st → st < 400 →
      isBlockedDomain ru.host = true →
      (tryFetch net url c).1.status = .unknown ∧
        ∀ u ∈ (tryFetch net url c).2, u = url)
  ∧ (∀ (net : Url → FetchResult) (d : String) (u : Url),
      u ∈ (verifyDomain net d).2 → isBlockedDomain u.host = false) := by
  refine ⟨?_, ?_, ?_⟩
  · intro net d hd
    unfold verifyDomain
    simp [hd]
  · intro net url ru c st ct body hnet h300 h400 hblk
    have hh : handleResponse (net url) = .done { status := .unknown } := by
      rw [hnet]
      unfold handleResponse
      simp [h300, h400, hblk]
    rw [tryFetch_eq]
    by_cases hc : MAX_REDIRECTS ≤ c
    · simp [hc]
    · simp [hc, hh]
  · intro net d u hu
    unfold verifyDomain at hu
    split at hu
    · simp at hu
    · rename_i hnb
      simp only [Bool.not_eq_true] at hnb
      have hh1 : isBlockedDomain (httpsUrl d).host = false := hnb
      have hh2 : isBlockedDomain (httpUrl d).host = false := hnb
      dsimp only at hu
      split at hu
      · simp only [List.mem_append] at hu
        rcases hu with hu | hu
        · exact tryFetch_log_hosts net (httpsUrl d) 0 hh1 u hu
        · exact tryFetch_log_hosts net (httpUrl d) 0 hh2 u hu
      · exact tryFetch_log_hosts net (httpsUrl d) 0 hh1 u hu

/-- Witness for C2: the cloud-metadata IP is rejected with no request, and
a redirect to `127.0.0.1` resolves to `unknown`. -/
theorem claim_C2_ssrf_blocklist_witness :
    verifyDomain (fun _ => FetchResult.err "x") "169.254.169.254" =
      ({ status := .unknown }, [])
  ∧ (tryFetch (fun _ => FetchResult.ok 301
        (some (some ⟨"127.0.0.1", "http://127.0.0.1/admin"⟩)) "" none)
      ⟨"example.com", "https://example.com"⟩ 0).1.status = .unknown := by
  constructor
  · exact claim_C2_ssrf_blocklist.1 _ _ (by decide)
  · exact (claim_C2_ssrf_blocklist.2.1 _ _ ⟨"127.0.0.1", "http://127.0.0.1/admin"⟩
      0 301 "" none rfl (by decide) (by decide) (by decide)).1

/-- C3 counterexample: `fd12::1` lies in the unique-local range `fc00::/7`
(its first hextet is `0xfd12`), yet `isBlockedDomain` does not match it —
the code only tests the textual prefixes `fc00:` / `fd00:`. -/
theorem claim_C3_blocklist_counterexample :
    inFc00Slash7 "fd12::1" ∧ isBlockedDomain "fd12::1" = false :=
  ⟨⟨0xfd12, by decide⟩, by decide⟩

/-- C3 (amended): `isBlockedDomain` accepts exactly the textual categories
of `blockedPatterns`: `localhost` (case-insensitively), the prefixes
`127.` / `10.` / `192.168.` / `172.16.`–`172.31.` / `169.254.` / `0.` /
`[::1]`, the exact string `::1`, the case-insensitive prefixes `fc00:`,
`fd00:` and `fe80:` (not the full `fc00::/7` and `fe80::/10` ranges),
hostnames containing `metadata.google`, and hostnames ending in
`.internal`. -/
theorem claim_C3_blocklist_coverage (s : String) :
    (lowerStr s = "localhost" → isBlockedDomain s = true)
  ∧ (strStarts s "127." = true → isBlockedDomain s = true)
  ∧ (strStarts s "10." = true → isBlockedDomain s = true)
  ∧ (strStarts s "192.168." = true → isBlockedDomain s = true)
  ∧ (∀ p ∈ blocked172, strStarts s p = true → isBlockedDomain s = true)
  ∧ (strStarts s "169.254." = true → isBlockedDomain s = true)
  ∧ (s = "::1" → isBlockedDomain s = true)
  ∧ (strStarts s "[::1]" = true → isBlockedDomain s = true)
  ∧ (strStarts (lowerStr s) "fc00:" = true → isBlockedDomain s = true)
  ∧ (strStarts (lowerStr s) "fd00:" = true → isBlockedDomain s = true)
  ∧ (strStarts (lowerStr s) "fe80:" = true → isBlockedDomain s = true)
  ∧ (strHas (lowerStr s) "metadata.google" = true → isBlockedDomain s = true)
  ∧ (strEnds (lowerStr s) ".internal" = true → isBlockedDomain s = true) := by
  refine ⟨?_, ?_, ?_, ?_, ?_, ?_, ?_, ?_, ?_, ?_, ?_, ?_, ?_⟩
  · intro h; simp [isBlockedDomain, h]
  · intro h; simp [isBlockedDomain, h]
  · intro h; simp [isBlockedDomain, h]
  · intro h; simp [isBlockedDomain, h]
  · intro p hp h
    have ha : blocked172.any (fun q => strStarts s q) = true := by
      rw [List.any_eq_true]
      exact ⟨p, hp, h⟩
    simp [isBlockedDomain, ha]
  · intro h; simp [isBlockedDomain, h]
  · intro h; subst h; decide
  · intro h; simp [isBlockedDomain, h]
  · intro h; simp [isBlockedDomain, h]
  · intro h; simp [isBlockedDomain, h]
  · intro h; simp [isBlockedDomain, h]
  · intro h; simp [isBlockedDomain, h]
  · intro h; simp [isBlockedDomain, h]

/-- Witness for C3 (amended) at concrete hostnames from several categories. -/
theorem claim_C3_blocklist_coverage_witness :
    isBlockedDomain "192.168.0.10" = true ∧ isBlockedDomain "172.20.3.4" = true
  ∧ isBlockedDomain "fe80::1" = true
  ∧ isBlockedDomain "metadata.google.internal" = true := by
  refine ⟨?_, ?_, ?_, ?_⟩
  · exact (claim_C3_blocklist_coverage "192.168.0.10").2.2.2.1 (by decide)
  · exact (claim_C3_blocklist_coverage "172.20.3.4").2.2.2.2.1 "172.20."
      (by decide) (by decide)
  · exact (claim_C3_blocklist_coverage "fe80::1").2.2.2.2.2.2.2.2.2.2.1 (by decide)
  · exact (claim_C3_blocklist_coverage
      "metadata.google.internal").2.2.2.2.2.2.2.2.2.2.2.2 (by decide)

/-- C4 counterexample: a 3xx redirect to a HugeDomains URL is a positive
URL-classification with an identified broker, yet the probe terminates
with status `parked`, not `for_sale`. -/
theorem claim_C4_redirect_counterexample :
    (tryFetch (fun _ => FetchResult.ok 301
        (some (some ⟨"www.hugedomains.com", "https://www.hugedomains.com/d"⟩)) "" none)
      ⟨"example.com", "https://example.com"⟩ 0).1.status = .parked
  ∧ (checkUrlForParking "https://www.hugedomains.com/d").broker = some "hugedomains"
  ∧ DomainStatus.parked ≠ DomainStatus.for_sale := by
  refine ⟨by decide, by decide, by decide⟩

/-- C4 (amended): when a 3xx response's validated (unblocked) redirect
destination URL positively URL-classifies, the probe terminates
immediately with status `parked` — without fetching the destination (the
only request is the original probe) — and a broker is always identified by
a positive URL match; the status is nonetheless `parked`, never
`for_sale`. -/
theorem claim_C4_redirect_fastpath (net : Url → FetchResult) (url ru : Url)
    (c st : Nat) (ct : String) (body : Option String)
    (hc : c < MAX_REDIRECTS)
    (hnet : net url = .ok st (some (some ru)) ct body)
    (h300 : 300 ≤ st) (h400 : st < 400)
    (hnb : isBlockedDomain ru.host = false)
    (hp : (checkUrlForParking ru.full).isParked = true) :
    tryFetch net url c =
      ({ status := .parked, parkingDetection := some (checkUrlForParking ru.full),
         httpStatus := some st, redirectUrl := some ru.full }, [url])
  ∧ (checkUrlForParking ru.full).broker.isSome = true := by
  constructor
  · have hh : handleResponse (net url) = .done
        { status := .parked, parkingDetection := some (checkUrlForParking ru.full),
          httpStatus := some st, redirectUrl := some ru.full } := by
      rw [hnet]
      unfold handleResponse
      simp [h300, h400, hnb, hp]
    exact tryFetch_done net url c _ (by omega) hh
  · rw [checkUrl_broker_iff]
    have h0 := (checkUrl_fields ru.full).1
    rw [h0] at hp
    simp only [decide_eq_true_eq] at hp
    exact List.length_pos.mp hp

/-- Witness for C4 (amended): a redirect into Sedo terminates at once as
`parked` with the broker identified. -/
theorem claim_C4_redirect_fastpath_witness :
    tryFetch (fun _ => FetchResult.ok 302
        (some (some ⟨"sedo.com", "https://sedo.com/search"⟩)) "" none)
      ⟨"example.com", "https://example.com"⟩ 0 =
      ({ status := .parked,
         parkingDetection := some (checkUrlForParking "https://sedo.com/search"),
         httpStatus := some 302, redirectUrl := some "https://sedo.com/search" },
       [⟨"example.com", "https://example.com"⟩])
  ∧ (checkUrlForParking "https://sedo.com/search").broker.isSome = true :=
  claim_C4_redirect_fastpath
    (fun _ => FetchResult.ok 302
      (some (some ⟨"sedo.com", "https://sedo.com/search"⟩)) "" none)
    ⟨"example.com", "https://example.com"⟩ ⟨"sedo.com", "https://sedo.com/search"⟩
    0 302 "" none (by decide) rfl (by decide) (by decide) (by decide) (by decide)

/-- C5 counterexample: URL-classifying `https://parkingcrew.com` yields one
indicator with a broker and confidence `medium`, where the claimed
derivation (`high` iff broker ∧ ≥3, `medium` iff otherwise ∧ ≥2, `low`
otherwise) demands `low`. -/
theorem claim_C5_confidence_counterexample :
    (checkUrlForParking "https://parkingcrew.com").confidence = Confidence.medium
  ∧ (checkUrlForParking "https://parkingcrew.com").indicators.length = 1
  ∧ (checkUrlForParking "https://parkingcrew.com").broker.isSome = true
  ∧ ¬((checkUrlForParking "https://parkingcrew.com").confidence = Confidence.medium ↔
      (¬((checkUrlForParking "https://parkingcrew.com").broker.isSome = true ∧
          3 ≤ (checkUrlForParking "https://parkingcrew.com").indicators.length) ∧
        2 ≤ (checkUrlForParking "https://parkingcrew.com").indicators.length)) := by
  refine ⟨by decide, by decide, by decide, by decide⟩

/-- C5 (amended): body classification (`analyzeHtml`) satisfies the full
derivation invariant (confidence `high` iff broker ∧ ≥3 indicators,
`medium` iff otherwise ∧ ≥2, `low` otherwise; `isParked` iff ≥2 indicators
or a broker).  URL classification satisfies the `isParked` invariant, but
derives confidence as `high` iff ≥2 indicators and `medium` otherwise
(never `low`, and without requiring 3 indicators for `high`). -/
theorem claim_C5_derivation_invariants :
    (∀ html : String,
      ((analyzeHtml html).confidence = .high ↔
        ((analyzeHtml html).broker.isSome = true ∧
          3 ≤ (analyzeHtml html).indicators.length))
    ∧ ((analyzeHtml html).confidence = .medium ↔
        (¬((analyzeHtml html).broker.isSome = true ∧
            3 ≤ (analyzeHtml html).indicators.length) ∧
          2 ≤ (analyzeHtml html).indicators.length))
    ∧ ((analyzeHtml html).confidence = .low ↔
        (¬((analyzeHtml html).broker.isSome = true ∧
            3 ≤ (analyzeHtml html).indicators.length) ∧
          ¬(2 ≤ (analyzeHtml html).indicators.length)))
    ∧ ((analyzeHtml html).isParked = true ↔
        (2 ≤ (analyzeHtml html).indicators.length ∨
          (analyzeHtml html).broker.isSome = true)))
  ∧ (∀ url : String,
      ((checkUrlForParking url).isParked = true ↔
        (2 ≤ (checkUrlForParking url).indicators.length ∨
          (checkUrlForParking url).broker.isSome = true))
    ∧ ((checkUrlForParking url).confidence =
        (if 2 ≤ (checkUrlForParking url).indicators.length then .high
         else .medium))) := by
  constructor
  · intro html
    obtain ⟨hcf, hpk⟩ := analyzeHtml_fields html
    obtain ⟨s1, s2, s3⟩ :=
      confOf_spec (analyzeHtml html).broker (analyzeHtml html).indicators.length
    refine ⟨by rw [hcf]; exact s1, by rw [hcf]; exact s2, by rw [hcf]; exact s3, ?_⟩
    rw [hpk]
    simp
  · intro url
    obtain ⟨hpk, hcf⟩ := checkUrl_fields url
    constructor
    · rw [hpk]
      simp only [decide_eq_true_eq]
      constructor
      · intro h0
        right
        rw [checkUrl_broker_iff]
        exact List.length_pos.mp h0
      · rintro (h2 | hb)
        · omega
        · rw [checkUrl_broker_iff] at hb
          exact List.length_pos.mpr hb
    · rw [hcf]
      by_cases h2 : 2 ≤ (checkUrlForParking url).indicators.length
      · have h1 : 1 < (checkUrlForParking url).indicators.length := by omega
        rw [if_pos h1, if_pos h2]
      · have h1 : ¬ 1 < (checkUrlForParking url).indicators.length := by omega
        rw [if_neg h1, if_neg h2]

/-- C6: every fetch-hop error — DNS failure, connection refused or reset,
TLS/certificate failure, timeout abort, or anything else thrown — makes
the probe resolve to `unknown`; in particular no network failure yields
`available`. -/
theorem claim_C6_errors_unknown (net : Url → FetchResult) (url : Url) (c : Nat)
    (msg : String) (h : net url = .err msg) :
    (tryFetch net url c).1.status = .unknown := by
  rw [tryFetch_eq]
  by_cases hc : MAX_REDIRECTS ≤ c
  · simp [hc]
  · have hh : handleResponse (net url) = .done { status := errorStatusFor msg } := by
      rw [h]
      rfl
    rw [errorStatusFor_unknown] at hh
    simp [hc, hh]

/-- Witness for C6 at a DNS-failure message. -/
theorem claim_C6_errors_unknown_witness :
    (tryFetch (fun _ => FetchResult.err "getaddrinfo ENOTFOUND nosuch.test")
      ⟨"nosuch.test", "https://nosuch.test"⟩ 0).1.status = .unknown :=
  claim_C6_errors_unknown _ _ 0 "getaddrinfo ENOTFOUND nosuch.test" rfl

/-- C7: if the dollar-pattern scan of a body finds exactly `$12,500` and
the other three price families find nothing, the classifier extracts
`estimatedPrice = "$12,500"` (numeric value 12500, inside the accepted
band `[50, 1000000]`); if the only price-like match is `$3`, nothing is
extracted (3 is below the $50 floor). -/
theorem claim_C7_price_extraction :
    (∀ html : String,
      scanDollar html = ["$12,500"] → scanUSD html = [] → scanEuro html = [] →
      scanEURWord html = [] → (analyzeHtml html).estimatedPrice = some "$12,500")
  ∧ (∀ html : String,
      scanDollar html = ["$3"] → scanUSD html = [] → scanEuro html = [] →
      scanEURWord html = [] → (analyzeHtml html).estimatedPrice = none)
  ∧ parseVal (stripNonNumDot ("$12,500".data)) = some (12500, 1)
  ∧ MIN_DOMAIN_PRICE * 1 ≤ 12500 ∧ (12500 : Nat) ≤ MAX_DOMAIN_PRICE * 1
  ∧ parseVal (stripNonNumDot ("$3".data)) = some (3, 1)
  ∧ ¬(MIN_DOMAIN_PRICE * 1 ≤ 3) := by
  refine ⟨?_, ?_, by decide, by decide, by decide, by decide, by decide⟩
  · intro html h1 h2 h3 h4
    rw [analyzeHtml_price]
    unfold analyzePrice pricePatternMatches
    rw [h1, h2, h3, h4]
    decide
  · intro html h1 h2 h3 h4
    rw [analyzeHtml_price]
    unfold analyzePrice pricePatternMatches
    rw [h1, h2, h3, h4]
    decide

/-- Witness for C7 at concrete bodies. -/
theorem claim_C7_price_extraction_witness :
    (analyzeHtml "domain for sale $12,500 today").estimatedPrice = some "$12,500"
  ∧ (analyzeHtml "only $3 here").estimatedPrice = none := by
  constructor
  · exact claim_C7_price_extraction.1 "domain for sale $12,500 today"
      (by decide) (by decide) (by decide) (by decide)
  · exact claim_C7_price_extraction.2.1 "only $3 here"
      (by decide) (by decide) (by decide) (by decide)

/-- C8: the prober performs at most 5 redirect hops: at redirect depth ≥ 5
it returns `unknown` without issuing any request; each followed redirect
re-enters the fetch at depth incremented by exactly 1; consequently the
request count of any probe is bounded by `5 - depth` (so the recursion
terminates on every, even infinitely redirecting, oracle). -/
theorem claim_C8_redirect_bound (net : Url → FetchResult) (url : Url) (c : Nat) :
    (MAX_REDIRECTS ≤ c → tryFetch net url c = ({ status := .unknown }, []))
  ∧ (tryFetch net url c).2.length ≤ MAX_REDIRECTS - c
  ∧ (∀ ru : Url, c < MAX_REDIRECTS → handleResponse (net url) = .follow ru →
      tryFetch net url c =
        ((tryFetch net ru (c + 1)).1, url :: (tryFetch net ru (c + 1)).2)) := by
  refine ⟨?_, tryFetchAux_log_length net _ url c, ?_⟩
  · intro h
    rw [tryFetch_eq]
    simp [h]
  · intro ru hlt hf
    rw [tryFetch_eq]
    have hn : ¬ MAX_REDIRECTS ≤ c := by omega
    simp [hn, hf]

/-- Witness for C8 on an oracle that always redirects. -/
theorem claim_C8_redirect_bound_witness :
    tryFetch (fun _ => FetchResult.ok 301
        (some (some ⟨"example.com", "https://example.com"⟩)) "" none)
      ⟨"example.com", "https://example.com"⟩ 5 = ({ status := .unknown }, [])
  ∧ tryFetch (fun _ => FetchResult.ok 301
        (some (some ⟨"example.com", "https://example.com"⟩)) "" none)
      ⟨"example.com", "https://example.com"⟩ 4 =
      ((tryFetch (fun _ => FetchResult.ok 301
          (some (some ⟨"example.com", "https://example.com"⟩)) "" none)
         ⟨"example.com", "https://example.com"⟩ 5).1,
        ⟨"example.com", "https://example.com"⟩ ::
          (tryFetch (fun _ => FetchResult.ok 301
            (some (some ⟨"example.com", "https://example.com"⟩)) "" none)
           ⟨"example.com", "https://example.com"⟩ 5).2) := by
  constructor
  · exact (claim_C8_redirect_bound _ _ 5).1 (by decide)
  · exact (claim_C8_redirect_bound _ _ 4).2.2 ⟨"example.com", "https://example.com"⟩
      (by decide) (by decide)

/-- C9: bulk verification chunks the input into consecutive groups of at
most 5 (all groups except possibly the last have exactly 5, and
concatenating the groups in order gives back the input), and its result
map has a key set equal to the input set with no duplicate keys; for a
duplicate-free input the map has exactly one entry per input domain. -/
theorem claim_C9_bulk_partition (net : Url → FetchResult) (ds : List String) :
    (chunkArray ds 5).flatten = ds
  ∧ (∀ chunk ∈ chunkArray ds 5, chunk.length ≤ 5)
  ∧ (∀ chunk ∈ (chunkArray ds 5).dropLast, chunk.length = 5)
  ∧ (mapKeys (verifyBulk net ds)).Nodup
  ∧ (∀ d : String, d ∈ mapKeys (verifyBulk net ds) ↔ d ∈ ds)
  ∧ (ds.Nodup → (verifyBulk net ds).length = ds.length) := by
  refine ⟨chunkArray_join ds, fun chunk hc => chunkArray_mem_length ds chunk hc,
    fun chunk hc => chunkArray_dropLast ds chunk hc,
    verifyBulk_keys_nodup net ds, verifyBulk_keys_mem net ds, ?_⟩
  intro hnd
  have hperm : List.Perm (mapKeys (verifyBulk net ds)) ds :=
    (List.perm_ext_iff_of_nodup (verifyBulk_keys_nodup net ds) hnd).mpr
      (verifyBulk_keys_mem net ds)
  have hlen := hperm.length_eq
  simpa [mapKeys] using hlen

/-- Witness for C9: 12 distinct domains yield exactly 12 map entries, and
the first chunk of the partition has exactly 5 elements. -/
theorem claim_C9_bulk_partition_witness :
    (verifyBulk (fun _ => FetchResult.err "x")
      ["d1", "d2", "d3", "d4", "d5", "d6", "d7", "d8", "d9", "d10", "d11", "d12"]).length = 12
  ∧ (["d1", "d2", "d3", "d4", "d5"] : List String).length = 5 := by
  constructor
  · exact (claim_C9_bulk_partition (fun _ => FetchResult.err "x")
      ["d1", "d2", "d3", "d4", "d5", "d6", "d7", "d8", "d9", "d10", "d11", "d12"]).2.2.2.2.2
      (by decide)
  · exact (claim_C9_bulk_partition (fun _ => FetchResult.err "x")
      ["d1", "d2", "d3", "d4", "d5", "d6", "d7", "d8", "d9", "d10", "d11", "d12"]).2.2.1
      ["d1", "d2", "d3", "d4", "d5"] (by decide)

/-- C10: every status an HTTP probe can return — from `tryFetch` at any
depth and from `verifyDomain` — is one of `taken`, `parked`, `for_sale`,
`unknown`; in particular the HTTP layer never produces `available` or
`premium`. -/
theorem claim_C10_probe_status_range :
    (∀ (net : Url → FetchResult) (url : Url) (c : Nat),
      probeStatus (tryFetch net url c).1.status)
  ∧ (∀ (net : Url → FetchResult) (d : String),
      probeStatus (verifyDomain net d).1.status)
  ∧ (∀ (net : Url → FetchResult) (d : String),
      (verifyDomain net d).1.status ≠ .available ∧
        (verifyDomain net d).1.status ≠ .premium) := by
  refine ⟨fun net url c => tryFetch_status net url c,
    fun net d => verifyDomain_status net d, ?_⟩
  intro net d
  have h := verifyDomain_status net d
  unfold probeStatus at h
  rcases h with h | h | h | h <;> rw [h] <;> exact ⟨by simp, by simp⟩

